import Mathlib

/-!
Shallow embedding of the resilient websocket client in
`src/articles/maintaining-a-websocket-connection/maintaining_a_websocket_connection.py`.

The Python program consists of two coroutines:

* `websocket_generator(retry_seconds=5)` — the Connection Supervisor.  An
  async generator: `while True: try: async with websockets.connect(URL) as
  websocket: yield websocket; except Exception as e: logging.error(...);
  asyncio.sleep(retry_seconds); continue`.  Note that the call
  `asyncio.sleep(retry_seconds)` is NOT awaited in the source: the coroutine
  object is constructed and immediately discarded, so no suspension happens.

* `print_btc_ticker()` — handshake + Message Pump.  `async for websocket in
  websocket_generator(): try: <send subscribe frame>; while websocket.open:
  response = await websocket.recv(); print(response); except Exception as e:
  logging.error(...); continue`.

We model one execution as a trace of events produced by an interpreter that is
driven by a script describing the outcomes of the external operations
(connect, send, recv, and the consumer `print`).  The interpreter's control
flow is a direct transcription of the Python control flow, including the
placement of the two `try/except Exception` blocks and of the `continue`
statements.
-/

/-- Minimal JSON value type, covering the shapes used by the subscribe
message built in `print_btc_ticker` (strings, arrays, objects). -/
inductive J where
  | str (s : String)
  | arr (elems : List J)
  | obj (fields : List (String × J))

/-- Quote a JSON string.  The strings occurring in the subscribe message
contain no characters that `json.dumps` would escape. -/
def jquote (s : String) : String := "\"" ++ s ++ "\""

mutual

/-- Serialization of a JSON value exactly as Python's `json.dumps` renders it
with the default separators: items joined by a comma and a space, keys and
values joined by a colon and a space. -/
def dumps : J → String
  | J.str s => jquote s
  | J.arr l => "[" ++ dumpsList l ++ "]"
  | J.obj l => "\x7b" ++ dumpsObj l ++ "\x7d"

/-- Serialization of the element list of a JSON array (comma-space separated). -/
def dumpsList : List J → String
  | [] => ""
  | [x] => dumps x
  | x :: y :: xs => dumps x ++ ", " ++ dumpsList (y :: xs)

/-- Serialization of the field list of a JSON object (comma-space separated,
colon-space between key and value). -/
def dumpsObj : List (String × J) → String
  | [] => ""
  | [(k, v)] => jquote k ++ ": " ++ dumps v
  | (k, v) :: y :: xs => jquote k ++ ": " ++ dumps v ++ ", " ++ dumpsObj (y :: xs)

end

/-- The dict literal `msg` built in `print_btc_ticker`, field for field. -/
def msg : J :=
  J.obj [("jsonrpc", J.str "2.0"),
         ("method", J.str "public/subscribe"),
         ("params", J.obj [("channels", J.arr [J.str "ticker.BTC-PERPETUAL.100ms"])])]

/-- The handshake frame actually sent: `json.dumps(msg)`. -/
def subscribeFrame : String := dumps msg

/-- Field lookup in a JSON object (first match), used to state properties of
the subscribe message. -/
def jfield (k : String) : J → Option J
  | J.obj l => (l.find? (fun p => p.1 == k)).map (fun p => p.2)
  | _ => none

/-- The `retry_seconds` default of `websocket_generator`; the main program
calls `websocket_generator()` so this value is always used, independently of
the number of consecutive failures. -/
def retry_seconds : Nat := 5

/-- Observable events of one execution.  `attempt` numbers count calls to
`websockets.connect`; `gen` numbers count successful connections
(generations), starting at 0. -/
inductive Event where
  /-- The Supervisor calls `websockets.connect(URL)` (attempt number `a`). -/
  | connectAttempt (a : Nat)
  /-- The connect call raised with message `e`. -/
  | connectFailed (a : Nat) (e : String)
  /-- A `logging.error` call from function `source` with message `e`. -/
  | logged (source : String) (e : String)
  /-- The expression `asyncio.sleep(d)` was evaluated, constructing a sleep
  coroutine.  The source never awaits it, so the coroutine is discarded. -/
  | sleepCreated (d : Nat)
  /-- An actual awaited suspension of `d` time units.  The interpreter never
  emits this event, because the source contains no awaited sleep: the bare
  statement `asyncio.sleep(retry_seconds)` does not suspend. -/
  | slept (d : Nat)
  /-- The connect succeeded and the `async with` opened handle generation `g`. -/
  | opened (gen : Nat)
  /-- The generator yielded the handle of generation `g` to the async-for. -/
  | yielded (gen : Nat)
  /-- The pump called `websocket.send(frame)` on generation `g`. -/
  | sent (gen : Nat) (frame : String)
  /-- The pump called `websocket.recv()` on generation `g`. -/
  | recvAttempt (gen : Nat)
  /-- The recv call returned frame `p` on generation `g`. -/
  | received (gen : Nat) (p : String)
  /-- The pump invoked the consumer `print` with frame `p` of generation `g`. -/
  | delivered (gen : Nat) (p : String)
  /-- The consumer raised with message `e` while processing a frame of
  generation `g`. -/
  | consumerFailed (gen : Nat) (e : String)
  /-- The `async with` block closed the handle of generation `g`. -/
  | closed (gen : Nat)
deriving DecidableEq

/-- Scripted outcome of one `websocket.recv()` call. -/
inductive RecvOutcome where
  /-- recv returns frame `p`; `consumerErr` says whether `print(p)` then
  raises (and with what message). -/
  | frame (p : String) (consumerErr : Option String)
  /-- recv raises with message `e`. -/
  | fail (e : String)
deriving DecidableEq

/-- Scripted behavior of one successful connection: whether the handshake
`send` raises, and the outcomes of the successive `recv` calls.  When the
`recvs` list is exhausted the server has closed the socket, so
`websocket.open` is false and the pump loop exits cleanly. -/
structure ConnScript where
  sendErr : Option String
  recvs : List RecvOutcome
deriving DecidableEq

/-- Scripted outcome of one connection attempt. -/
inductive AttemptScript where
  /-- `websockets.connect` raises with message `e`. -/
  | fail (e : String)
  /-- `websockets.connect` succeeds and the connection behaves as `conn`. -/
  | ok (conn : ConnScript)
deriving DecidableEq

/-- Where the interpreter stands after consuming a finite script.  The Python
program has three conceivable ways for the combined loops to stand or end;
only `running` is ever produced, because `print_btc_ticker` has no normal
return path and both `except Exception` handlers swallow every error. -/
inductive RunOutcome where
  /-- The Supervisor is about to make connection attempt `a` (next generation
  number `g`): the system is still running and wants more script. -/
  | running (a : Nat) (g : Nat)
  /-- The async-for ended because the generator returned (never happens: the
  generator body is `while True`). -/
  | finished
  /-- An exception escaped to the process boundary (never happens: every
  exception is caught by one of the two `except Exception` clauses). -/
  | raised (e : String)
deriving DecidableEq

/-- The inner receive loop of `print_btc_ticker` for generation `gen`:
`while websocket.open: response = await websocket.recv(); print(response)`.
Returns the events of the loop and the exception escaping it, if any.  A
recv failure or a consumer failure raises out of the loop; exhausting the
script means the socket closed, so the loop exits cleanly. -/
def pumpLoop (gen : Nat) : List RecvOutcome → List Event × Option String
  | [] => ([], none)
  | RecvOutcome.frame p none :: rest =>
      let t := pumpLoop gen rest
      (Event.recvAttempt gen :: Event.received gen p :: Event.delivered gen p :: t.1, t.2)
  | RecvOutcome.frame p (some ce) :: _ =>
      ([Event.recvAttempt gen, Event.received gen p, Event.delivered gen p,
        Event.consumerFailed gen ce], some ce)
  | RecvOutcome.fail e :: _ =>
      ([Event.recvAttempt gen], some e)

/-- The whole body of the async-for in `print_btc_ticker` for one yielded
handle: the try block (handshake send, then the receive loop) together with
the `except Exception` clause, which logs the error and swallows it
(`continue`).  The handshake send is attempted exactly once; if it raises, no
receive is attempted. -/
def pumpGeneration (gen : Nat) (c : ConnScript) : List Event :=
  match c.sendErr with
  | some e => [Event.sent gen subscribeFrame, Event.logged "print_btc_ticker" e]
  | none =>
      let t := pumpLoop gen c.recvs
      match t.2 with
      | none => Event.sent gen subscribeFrame :: t.1
      | some e => Event.sent gen subscribeFrame :: t.1 ++ [Event.logged "print_btc_ticker" e]

/-- The combined Supervisor/Pump execution, driven by a finite script of
connection-attempt outcomes.  `a` is the next attempt number, `g` the next
generation number.  A failed attempt follows the generator's `except` clause:
log, evaluate `asyncio.sleep(retry_seconds)` without awaiting it, `continue`.
A successful attempt opens and yields a handle, runs the pump body, and — when
the async-for pulls the next item — resumes the generator, which closes the
handle and loops to the next attempt. -/
def run (a g : Nat) : List AttemptScript → List Event × RunOutcome
  | [] => ([], RunOutcome.running a g)
  | AttemptScript.fail e :: rest =>
      let t := run (a + 1) g rest
      (Event.connectAttempt a :: Event.connectFailed a e ::
         Event.logged "websocket_generator" e ::
         Event.sleepCreated retry_seconds :: t.1, t.2)
  | AttemptScript.ok c :: rest =>
      let t := run (a + 1) (g + 1) rest
      (Event.connectAttempt a :: Event.opened g :: Event.yielded g ::
         (pumpGeneration g c ++ Event.closed g :: t.1), t.2)

/-- The execution as launched by `asyncio.run(print_btc_ticker())`: attempt
and generation counters start at 0. -/
def wsRun (sc : List AttemptScript) : List Event × RunOutcome := run 0 0 sc

/-- The generation an event belongs to, if any. -/
def evGen : Event → Option Nat
  | Event.opened g => some g
  | Event.yielded g => some g
  | Event.sent g _ => some g
  | Event.recvAttempt g => some g
  | Event.received g _ => some g
  | Event.delivered g _ => some g
  | Event.consumerFailed g _ => some g
  | Event.closed g => some g
  | _ => none

/-- Total time actually spent suspended in the trace (sum of `slept` events). -/
def sleptTotal : List Event → Nat
  | [] => 0
  | Event.slept d :: rest => d + sleptTotal rest
  | _ :: rest => sleptTotal rest

/-- Durations of all sleep coroutines constructed in the trace, in order. -/
def sleepDurations : List Event → List Nat
  | [] => []
  | Event.sleepCreated d :: rest => d :: sleepDurations rest
  | _ :: rest => sleepDurations rest

/-- Number of `websockets.connect` calls in the trace. -/
def countConnectAttempts : List Event → Nat
  | [] => 0
  | Event.connectAttempt _ :: rest => countConnectAttempts rest + 1
  | _ :: rest => countConnectAttempts rest

/-- Number of successfully opened handles in the trace. -/
def countOpened : List Event → Nat
  | [] => 0
  | Event.opened _ :: rest => countOpened rest + 1
  | _ :: rest => countOpened rest

/-- Frames passed to `websocket.send` on generation `g`, in order. -/
def sentFramesOn (g : Nat) : List Event → List String
  | [] => []
  | Event.sent g2 f :: rest =>
      if g2 = g then f :: sentFramesOn g rest else sentFramesOn g rest
  | _ :: rest => sentFramesOn g rest

/-- Number of `websocket.recv` calls made on generation `g`. -/
def countRecvAttemptsOn (g : Nat) : List Event → Nat
  | [] => 0
  | Event.recvAttempt g2 :: rest =>
      if g2 = g then countRecvAttemptsOn g rest + 1 else countRecvAttemptsOn g rest
  | _ :: rest => countRecvAttemptsOn g rest

/-- Number of `logging.error` calls in the trace. -/
def countLogged : List Event → Nat
  | [] => 0
  | Event.logged _ _ :: rest => countLogged rest + 1
  | _ :: rest => countLogged rest

/-- Number of sleep coroutines constructed in the trace. -/
def countSleepCreated : List Event → Nat
  | [] => 0
  | Event.sleepCreated _ :: rest => countSleepCreated rest + 1
  | _ :: rest => countSleepCreated rest

/-- Frames the consumer was invoked with on generation `g`, in order. -/
def deliveredOn (g : Nat) : List Event → List String
  | [] => []
  | Event.delivered g2 p :: rest =>
      if g2 = g then p :: deliveredOn g rest else deliveredOn g rest
  | _ :: rest => deliveredOn g rest

/-- Frames returned by `websocket.recv` on generation `g`, in order. -/
def receivedOn (g : Nat) : List Event → List String
  | [] => []
  | Event.received g2 p :: rest =>
      if g2 = g then p :: receivedOn g rest else receivedOn g rest
  | _ :: rest => receivedOn g rest

/-- True when the first transport interaction of generation `g` in the trace
(send, recv, received frame, or delivery to the consumer) is a send: the
handshake happens before any receive and before any forwarded message. -/
def handshakeFirst (g : Nat) : List Event → Bool
  | [] => true
  | Event.sent g2 _ :: rest => if g2 = g then true else handshakeFirst g rest
  | Event.recvAttempt g2 :: rest => if g2 = g then false else handshakeFirst g rest
  | Event.received g2 _ :: rest => if g2 = g then false else handshakeFirst g rest
  | Event.delivered g2 _ :: rest => if g2 = g then false else handshakeFirst g rest
  | _ :: rest => handshakeFirst g rest

/-- Checks the single-open-handle discipline along a trace: starting from
`isOpen` handles currently open (`false` = none), a handle is only ever
opened when none is open, and only ever closed when one is open.  So at most
one handle is open at any instant, and the previous generation's handle is
closed before a new connection is opened. -/
def openOk : Bool → List Event → Bool
  | _, [] => true
  | isOpen, Event.opened _ :: rest => !isOpen && openOk true rest
  | isOpen, Event.closed _ :: rest => isOpen && openOk false rest
  | isOpen, _ :: rest => openOk isOpen rest

/-- Checks, at every consumer failure in the trace, what actually follows it:
the pump immediately logs the error, no further receive or received frame
occurs on that generation's handle, and every later delivery to the consumer
is on a strictly later generation — i.e. the client reconnects instead of
continuing on the same handle. -/
def consumerFailureReconnects : List Event → Bool
  | [] => true
  | Event.consumerFailed g e :: rest =>
      (match rest with
       | Event.logged src e2 :: _ => src == "print_btc_ticker" && e2 == e
       | _ => false)
      && rest.all (fun ev =>
           match ev with
           | Event.recvAttempt g2 => g2 != g
           | Event.received g2 _ => g2 != g
           | Event.delivered g2 _ => decide (g < g2)
           | _ => true)
      && consumerFailureReconnects rest
  | _ :: rest => consumerFailureReconnects rest

/-- The part of a trace strictly after the first consumer failure. -/
def afterFirstConsumerFail : List Event → List Event
  | [] => []
  | Event.consumerFailed _ _ :: rest => rest
  | _ :: rest => afterFirstConsumerFail rest

/-- The generation of the first delivery to the consumer in a trace. -/
def firstDeliveredGen : List Event → Option Nat
  | [] => none
  | Event.delivered g _ :: _ => some g
  | _ :: rest => firstDeliveredGen rest

/-- Test scenario for consumer failure: on the first connection the consumer
raises on frame "A" (frame "B" is still pending in the transport); the second
connection delivers frame "C". -/
def consumerFailScript : List AttemptScript :=
  [AttemptScript.ok ⟨none, [RecvOutcome.frame "A" (some "boom"), RecvOutcome.frame "B" none]⟩,
   AttemptScript.ok ⟨none, [RecvOutcome.frame "C" none]⟩]

/-- Test scenario for the retry wait: the first connection attempt is
refused, the second succeeds. -/
def refusedOnceScript : List AttemptScript :=
  [AttemptScript.fail "refused", AttemptScript.ok ⟨none, []⟩]

/-- Test scenario for a mid-stream receive error: the connection delivers the
given frames (consumer succeeding on each), then a recv call raises `e`; the
remaining scripted outcomes are never reached. -/
def recvFailScript (frames : List String) (e : String) (post : List RecvOutcome) : ConnScript :=
  ⟨none, frames.map (fun p => RecvOutcome.frame p none) ++ RecvOutcome.fail e :: post⟩

theorem sleptTotal_append (t1 t2 : List Event) :
    sleptTotal (t1 ++ t2) = sleptTotal t1 + sleptTotal t2 := by
  induction t1 with
  | nil => simp [sleptTotal]
  | cons ev rest ih => cases ev <;> simp [sleptTotal, ih] <;> omega

theorem sleepDurations_append (t1 t2 : List Event) :
    sleepDurations (t1 ++ t2) = sleepDurations t1 ++ sleepDurations t2 := by
  induction t1 with
  | nil => simp [sleepDurations]
  | cons ev rest ih => cases ev <;> simp [sleepDurations, ih]

theorem sleptTotal_pumpLoop (g : Nat) (rs : List RecvOutcome) :
    sleptTotal (pumpLoop g rs).1 = 0 := by
  induction rs with
  | nil => rfl
  | cons r rest ih =>
      cases r with
      | frame p ce => cases ce <;> simp [pumpLoop, sleptTotal, ih]
      | fail e => simp [pumpLoop, sleptTotal]

theorem sleepDurations_pumpLoop (g : Nat) (rs : List RecvOutcome) :
    sleepDurations (pumpLoop g rs).1 = [] := by
  induction rs with
  | nil => rfl
  | cons r rest ih =>
      cases r with
      | frame p ce => cases ce <;> simp [pumpLoop, sleepDurations, ih]
      | fail e => simp [pumpLoop, sleepDurations]

theorem sleptTotal_pumpGeneration (g : Nat) (c : ConnScript) :
    sleptTotal (pumpGeneration g c) = 0 := by
  obtain ⟨se, rs⟩ := c
  cases se with
  | some e => rfl
  | none =>
      cases h : (pumpLoop g rs).2 <;>
        simp [pumpGeneration, h, sleptTotal, sleptTotal_append, sleptTotal_pumpLoop]

theorem sleepDurations_pumpGeneration (g : Nat) (c : ConnScript) :
    sleepDurations (pumpGeneration g c) = [] := by
  obtain ⟨se, rs⟩ := c
  cases se with
  | some e => rfl
  | none =>
      cases h : (pumpLoop g rs).2 <;>
        simp [pumpGeneration, h, sleepDurations, sleepDurations_append, sleepDurations_pumpLoop]

theorem run_never_sleeps (a g : Nat) (sc : List AttemptScript) :
    sleptTotal (run a g sc).1 = 0 ∧
      sleepDurations (run a g sc).1 = List.replicate (sleepDurations (run a g sc).1).length retry_seconds := by
  induction sc generalizing a g with
  | nil => exact ⟨rfl, rfl⟩
  | cons s rest ih =>
      cases s with
      | fail e =>
          obtain ⟨ih1, ih2⟩ := ih (a + 1) g
          refine ⟨by simp [run, sleptTotal, ih1], ?_⟩
          simp [run, sleepDurations, List.replicate_succ]
          exact ih2
      | ok c =>
          obtain ⟨ih1, ih2⟩ := ih (a + 1) (g + 1)
          constructor
          · simp [run, sleptTotal, sleptTotal_append, sleptTotal_pumpGeneration, ih1]
          · simp [run, sleepDurations, sleepDurations_append, sleepDurations_pumpGeneration]
            exact ih2

/-- C7: the handshake frame sent on each new connection serializes to the
JSON object with keys jsonrpc = "2.0", method = "public/subscribe" and
params.channels = exactly ["ticker.BTC-PERPETUAL.100ms"]; the rendered text
is the `json.dumps` output of the source's `msg` dict. -/
theorem C7_subscribe_frame_serialization :
    subscribeFrame =
      "\x7b\"jsonrpc\": \"2.0\", \"method\": \"public/subscribe\", \"params\": \x7b\"channels\": [\"ticker.BTC-PERPETUAL.100ms\"]\x7d\x7d" ∧
    jfield "jsonrpc" msg = some (J.str "2.0") ∧
    jfield "method" msg = some (J.str "public/subscribe") ∧
    (jfield "params" msg).bind (jfield "channels") =
      some (J.arr [J.str "ticker.BTC-PERPETUAL.100ms"]) :=
  ⟨rfl, rfl, rfl, rfl⟩

/-- C2 (code bug): the Retry Policy value is the constant `retry_seconds = 5`
for every failure, but the Supervisor never actually suspends: the source
evaluates `asyncio.sleep(retry_seconds)` without awaiting it, so the next
connection attempt follows the failure with zero elapsed wait.  Concretely,
after a refused first attempt the trace goes directly from the discarded
sleep coroutine to attempt 1; and over every script, total suspended time is
0 while every constructed sleep coroutine carries the constant 5. -/
theorem C2_sleep_never_awaited :
    (wsRun refusedOnceScript).1 =
      [Event.connectAttempt 0, Event.connectFailed 0 "refused",
       Event.logged "websocket_generator" "refused", Event.sleepCreated 5,
       Event.connectAttempt 1, Event.opened 0, Event.yielded 0,
       Event.sent 0 subscribeFrame, Event.closed 0] ∧
    retry_seconds = 5 ∧
    (∀ sc : List AttemptScript,
      sleptTotal (wsRun sc).1 = 0 ∧
        sleepDurations (wsRun sc).1 =
          List.replicate (sleepDurations (wsRun sc).1).length retry_seconds) :=
  ⟨rfl, rfl, fun sc => run_never_sleeps 0 0 sc⟩

theorem evGen_pumpLoop (g : Nat) (rs : List RecvOutcome) (ev : Event)
    (h : ev ∈ (pumpLoop g rs).1) : evGen ev = some g := by
  induction rs with
  | nil => simp [pumpLoop] at h
  | cons r rest ih =>
      cases r with
      | frame p ce =>
          cases ce with
          | none =>
              simp only [pumpLoop, List.mem_cons] at h
              rcases h with rfl | rfl | rfl | h
              · rfl
              · rfl
              · rfl
              · exact ih h
          | some ce =>
              simp only [pumpLoop, List.mem_cons, List.not_mem_nil, or_false] at h
              rcases h with rfl | rfl | rfl | rfl <;> rfl
      | fail e =>
          simp only [pumpLoop, List.mem_singleton] at h
          subst h; rfl

theorem evGen_pumpGeneration (g : Nat) (c : ConnScript) (ev : Event)
    (h : ev ∈ pumpGeneration g c) : evGen ev = some g ∨ evGen ev = none := by
  obtain ⟨se, rs⟩ := c
  cases se with
  | some e =>
      simp only [pumpGeneration, List.mem_cons, List.not_mem_nil, or_false] at h
      rcases h with rfl | rfl
      · exact Or.inl rfl
      · exact Or.inr rfl
  | none =>
      cases hr : (pumpLoop g rs).2 with
      | none =>
          simp only [pumpGeneration, hr, List.mem_cons] at h
          rcases h with rfl | h
          · exact Or.inl rfl
          · exact Or.inl (evGen_pumpLoop g rs ev h)
      | some e =>
          simp only [pumpGeneration, hr, List.mem_cons, List.mem_append,
            List.not_mem_nil, or_false] at h
          rcases h with (rfl | h) | rfl
          · exact Or.inl rfl
          · exact Or.inl (evGen_pumpLoop g rs ev h)
          · exact Or.inr rfl

theorem evGen_run_ge (sc : List AttemptScript) (a g : Nat) (ev : Event)
    (h : ev ∈ (run a g sc).1) (g2 : Nat) (hg : evGen ev = some g2) : g ≤ g2 := by
  induction sc generalizing a g with
  | nil => simp [run] at h
  | cons s rest ih =>
      cases s with
      | fail e =>
          simp only [run, List.mem_cons] at h
          rcases h with rfl | rfl | rfl | rfl | h
          · simp [evGen] at hg
          · simp [evGen] at hg
          · simp [evGen] at hg
          · simp [evGen] at hg
          · exact ih (a + 1) g h
      | ok c =>
          simp only [run, List.mem_cons, List.mem_append] at h
          rcases h with rfl | rfl | rfl | h | rfl | h
          · simp [evGen] at hg
          · simp [evGen] at hg; omega
          · simp [evGen] at hg; omega
          · rcases evGen_pumpGeneration g c ev h with h2 | h2
            · rw [h2] at hg; injection hg with hh; omega
            · rw [h2] at hg; exact absurd hg (by simp)
          · simp [evGen] at hg; omega
          · have := ih (a + 1) (g + 1) h
            omega

theorem consumerScan_pumpLoop (g : Nat) (rs : List RecvOutcome) (tail : List Event)
    (htail : ∀ ev ∈ tail, ∀ g2, evGen ev = some g2 → g < g2)
    (hrec : consumerFailureReconnects tail = true) :
    consumerFailureReconnects
      ((pumpLoop g rs).1 ++
        ((pumpLoop g rs).2.elim [] (fun e => [Event.logged "print_btc_ticker" e])) ++
        Event.closed g :: tail) = true := by
  induction rs with
  | nil => simpa [pumpLoop, consumerFailureReconnects] using hrec
  | cons r rest ih =>
      cases r with
      | frame p ce =>
          cases ce with
          | none =>
              simpa [pumpLoop, consumerFailureReconnects] using ih
          | some ce =>
              have hall : (List.all tail fun ev =>
                  match ev with
                  | Event.recvAttempt g2 => g2 != g
                  | Event.received g2 _ => g2 != g
                  | Event.delivered g2 _ => decide (g < g2)
                  | _ => true) = true := by
                refine List.all_eq_true.mpr (fun ev hev => ?_)
                cases ev with
                | recvAttempt g2 =>
                    simpa [bne_iff_ne] using ne_of_gt (htail _ hev g2 rfl)
                | received g2 p2 =>
                    simpa [bne_iff_ne] using ne_of_gt (htail _ hev g2 rfl)
                | delivered g2 p2 =>
                    simpa using htail _ hev g2 rfl
                | connectAttempt a => rfl
                | connectFailed a e => rfl
                | logged s e2 => rfl
                | sleepCreated d => rfl
                | slept d => rfl
                | opened gg => rfl
                | yielded gg => rfl
                | sent gg f => rfl
                | consumerFailed g2 e2 => rfl
                | closed gg => rfl
              simp [pumpLoop, consumerFailureReconnects, hrec, hall]
      | fail e =>
          simpa [pumpLoop, consumerFailureReconnects] using hrec

theorem consumerScan_pumpGeneration (g : Nat) (c : ConnScript) (tail : List Event)
    (htail : ∀ ev ∈ tail, ∀ g2, evGen ev = some g2 → g < g2)
    (hrec : consumerFailureReconnects tail = true) :
    consumerFailureReconnects (pumpGeneration g c ++ Event.closed g :: tail) = true := by
  obtain ⟨se, rs⟩ := c
  cases se with
  | some e => simpa [pumpGeneration, consumerFailureReconnects] using hrec
  | none =>
      have h := consumerScan_pumpLoop g rs tail htail hrec
      cases hr : (pumpLoop g rs).2 with
      | none =>
          rw [hr] at h
          simpa [pumpGeneration, hr, consumerFailureReconnects] using h
      | some e =>
          rw [hr] at h
          simpa [pumpGeneration, hr, consumerFailureReconnects] using h

theorem consumerScan_run (sc : List AttemptScript) (a g : Nat) :
    consumerFailureReconnects (run a g sc).1 = true := by
  induction sc generalizing a g with
  | nil => rfl
  | cons s rest ih =>
      cases s with
      | fail e => simpa [run, consumerFailureReconnects] using ih (a + 1) g
      | ok c =>
          have htail : ∀ ev ∈ (run (a + 1) (g + 1) rest).1,
              ∀ g2, evGen ev = some g2 → g < g2 := by
            intro ev hev g2 hg
            have := evGen_run_ge rest (a + 1) (g + 1) ev hev g2 hg
            omega
          have h := consumerScan_pumpGeneration g c (run (a + 1) (g + 1) rest).1
            htail (ih (a + 1) (g + 1))
          simpa [run, consumerFailureReconnects] using h

/-- C1 (counterexample to the claim as stated): on a run where the consumer
fails on the first delivered frame of generation 0, the trace after the
failure shows the pump logging the error but then reconnecting: the handle of
generation 0 is closed, a new connection attempt is made, and the next
message is delivered on generation 1 — not on the same handle with the
generation unchanged. -/
theorem C1_counterexample_same_handle :
    afterFirstConsumerFail (wsRun consumerFailScript).1 =
      [Event.logged "print_btc_ticker" "boom", Event.closed 0, Event.connectAttempt 1,
       Event.opened 1, Event.yielded 1, Event.sent 1 subscribeFrame,
       Event.recvAttempt 1, Event.received 1 "C", Event.delivered 1 "C",
       Event.closed 1] ∧
    firstDeliveredGen (afterFirstConsumerFail (wsRun consumerFailScript).1) = some 1 ∧
    deliveredOn 0 (afterFirstConsumerFail (wsRun consumerFailScript).1) = [] :=
  ⟨rfl, rfl, rfl⟩

/-- C1 (amended): for every failure raised by the Consumer while processing a
delivered message, the Message Pump logs the error, but it does not continue
on the same handle: no further receive happens on that generation, the handle
is abandoned, and the next message (if any) is delivered on a strictly later
generation after reconnecting. -/
theorem C1_consumer_failure_reconnects (sc : List AttemptScript) :
    consumerFailureReconnects (wsRun sc).1 = true :=
  consumerScan_run sc 0 0

theorem deliveredOn_append (g : Nat) (t1 t2 : List Event) :
    deliveredOn g (t1 ++ t2) = deliveredOn g t1 ++ deliveredOn g t2 := by
  induction t1 with
  | nil => simp [deliveredOn]
  | cons ev rest ih => cases ev <;> simp [deliveredOn, ih] <;> split <;> simp

theorem receivedOn_append (g : Nat) (t1 t2 : List Event) :
    receivedOn g (t1 ++ t2) = receivedOn g t1 ++ receivedOn g t2 := by
  induction t1 with
  | nil => simp [receivedOn]
  | cons ev rest ih => cases ev <;> simp [receivedOn, ih] <;> split <;> simp

theorem countConnectAttempts_append (t1 t2 : List Event) :
    countConnectAttempts (t1 ++ t2) = countConnectAttempts t1 + countConnectAttempts t2 := by
  induction t1 with
  | nil => simp [countConnectAttempts]
  | cons ev rest ih => cases ev <;> simp [countConnectAttempts, ih] <;> omega

theorem countOpened_append (t1 t2 : List Event) :
    countOpened (t1 ++ t2) = countOpened t1 + countOpened t2 := by
  induction t1 with
  | nil => simp [countOpened]
  | cons ev rest ih => cases ev <;> simp [countOpened, ih] <;> omega

theorem countRecvAttemptsOn_append (g : Nat) (t1 t2 : List Event) :
    countRecvAttemptsOn g (t1 ++ t2) = countRecvAttemptsOn g t1 + countRecvAttemptsOn g t2 := by
  induction t1 with
  | nil => simp [countRecvAttemptsOn]
  | cons ev rest ih =>
      cases ev <;> simp [countRecvAttemptsOn, ih] <;> split <;> omega

theorem countLogged_append (t1 t2 : List Event) :
    countLogged (t1 ++ t2) = countLogged t1 + countLogged t2 := by
  induction t1 with
  | nil => simp [countLogged]
  | cons ev rest ih => cases ev <;> simp [countLogged, ih] <;> omega

theorem countSleepCreated_append (t1 t2 : List Event) :
    countSleepCreated (t1 ++ t2) = countSleepCreated t1 + countSleepCreated t2 := by
  induction t1 with
  | nil => simp [countSleepCreated]
  | cons ev rest ih => cases ev <;> simp [countSleepCreated, ih] <;> omega

theorem sentFramesOn_append (g : Nat) (t1 t2 : List Event) :
    sentFramesOn g (t1 ++ t2) = sentFramesOn g t1 ++ sentFramesOn g t2 := by
  induction t1 with
  | nil => simp [sentFramesOn]
  | cons ev rest ih => cases ev <;> simp [sentFramesOn, ih] <;> split <;> simp

theorem deliveredOn_pumpLoop_eq (g g2 : Nat) (rs : List RecvOutcome) :
    deliveredOn g2 (pumpLoop g rs).1 = receivedOn g2 (pumpLoop g rs).1 := by
  induction rs with
  | nil => rfl
  | cons r rest ih =>
      cases r with
      | frame p ce =>
          cases ce with
          | none =>
              simp only [pumpLoop, deliveredOn, receivedOn]
              split <;> simp [ih]
          | some ce =>
              simp only [pumpLoop, deliveredOn, receivedOn]
      | fail e => rfl

theorem deliveredOn_pumpGeneration_eq (g g2 : Nat) (c : ConnScript) :
    deliveredOn g2 (pumpGeneration g c) = receivedOn g2 (pumpGeneration g c) := by
  obtain ⟨se, rs⟩ := c
  cases se with
  | some e => simp [pumpGeneration, deliveredOn, receivedOn]
  | none =>
      cases hr : (pumpLoop g rs).2 with
      | none =>
          simp [pumpGeneration, hr, deliveredOn, receivedOn, deliveredOn_pumpLoop_eq]
      | some e =>
          simp [pumpGeneration, hr, deliveredOn, receivedOn, deliveredOn_append,
            receivedOn_append, deliveredOn_pumpLoop_eq]

theorem deliveredOn_run_eq (sc : List AttemptScript) (a g g2 : Nat) :
    deliveredOn g2 (run a g sc).1 = receivedOn g2 (run a g sc).1 := by
  induction sc generalizing a g with
  | nil => rfl
  | cons s rest ih =>
      cases s with
      | fail e => simp [run, deliveredOn, receivedOn, ih]
      | ok c =>
          simp [run, deliveredOn, receivedOn, deliveredOn_append, receivedOn_append,
            deliveredOn_pumpGeneration_eq, ih]

/-- C8: for every connection generation, the sequence of frames the consumer
is invoked with equals, verbatim and in order, the sequence of frames
returned by `websocket.recv` on that generation's handle. -/
theorem C8_delivered_matches_received (sc : List AttemptScript) (g : Nat) :
    deliveredOn g (wsRun sc).1 = receivedOn g (wsRun sc).1 :=
  deliveredOn_run_eq sc 0 0 g

theorem openOk_pumpLoop (g : Nat) (rs : List RecvOutcome) (b : Bool) (t : List Event) :
    openOk b ((pumpLoop g rs).1 ++ t) = openOk b t := by
  induction rs with
  | nil => rfl
  | cons r rest ih =>
      cases r with
      | frame p ce => cases ce <;> simp [pumpLoop, openOk, ih]
      | fail e => simp [pumpLoop, openOk]

theorem openOk_pumpGeneration (g : Nat) (c : ConnScript) (b : Bool) (t : List Event) :
    openOk b (pumpGeneration g c ++ t) = openOk b t := by
  obtain ⟨se, rs⟩ := c
  cases se with
  | some e => simp [pumpGeneration, openOk]
  | none =>
      cases hr : (pumpLoop g rs).2 with
      | none => simp [pumpGeneration, hr, openOk, openOk_pumpLoop]
      | some e =>
          have h := openOk_pumpLoop g rs b ([Event.logged "print_btc_ticker" e] ++ t)
          simp only [pumpGeneration, hr, openOk]
          simpa [openOk] using h

theorem openOk_run (sc : List AttemptScript) (a g : Nat) :
    openOk false (run a g sc).1 = true := by
  induction sc generalizing a g with
  | nil => rfl
  | cons s rest ih =>
      cases s with
      | fail e => simpa [run, openOk] using ih (a + 1) g
      | ok c =>
          have h := openOk_pumpGeneration g c true (Event.closed g :: (run (a + 1) (g + 1) rest).1)
          simp [run, openOk, h, ih (a + 1) (g + 1)]

/-- C9: at every instant at most one transport handle is open — along every
trace, a handle is only opened when no handle is open (so the previous
generation's handle is closed before a new connection is opened), and only
closed when one is open. -/
theorem C9_at_most_one_open_handle (sc : List AttemptScript) :
    openOk false (wsRun sc).1 = true :=
  openOk_run sc 0 0

theorem countConnectAttempts_pumpLoop (g : Nat) (rs : List RecvOutcome) :
    countConnectAttempts (pumpLoop g rs).1 = 0 := by
  induction rs with
  | nil => rfl
  | cons r rest ih =>
      cases r with
      | frame p ce => cases ce <;> simp [pumpLoop, countConnectAttempts, ih]
      | fail e => simp [pumpLoop, countConnectAttempts]

theorem countOpened_pumpLoop (g : Nat) (rs : List RecvOutcome) :
    countOpened (pumpLoop g rs).1 = 0 := by
  induction rs with
  | nil => rfl
  | cons r rest ih =>
      cases r with
      | frame p ce => cases ce <;> simp [pumpLoop, countOpened, ih]
      | fail e => simp [pumpLoop, countOpened]

theorem countConnectAttempts_pumpGeneration (g : Nat) (c : ConnScript) :
    countConnectAttempts (pumpGeneration g c) = 0 := by
  obtain ⟨se, rs⟩ := c
  cases se with
  | some e => rfl
  | none =>
      cases hr : (pumpLoop g rs).2 <;>
        simp [pumpGeneration, hr, countConnectAttempts, countConnectAttempts_append,
          countConnectAttempts_pumpLoop]

theorem countOpened_pumpGeneration (g : Nat) (c : ConnScript) :
    countOpened (pumpGeneration g c) = 0 := by
  obtain ⟨se, rs⟩ := c
  cases se with
  | some e => rfl
  | none =>
      cases hr : (pumpLoop g rs).2 <;>
        simp [pumpGeneration, hr, countOpened, countOpened_append, countOpened_pumpLoop]

theorem run_outcome_running (sc : List AttemptScript) (a g : Nat) :
    (run a g sc).2 =
      RunOutcome.running (a + countConnectAttempts (run a g sc).1)
        (g + countOpened (run a g sc).1) := by
  induction sc generalizing a g with
  | nil => simp [run, countConnectAttempts, countOpened]
  | cons s rest ih =>
      cases s with
      | fail e =>
          have h := ih (a + 1) g
          simp only [run, countConnectAttempts, countOpened]
          rw [h]
          congr 1
          omega
      | ok c =>
          have h := ih (a + 1) (g + 1)
          simp only [run, countConnectAttempts, countOpened, countConnectAttempts_append,
            countOpened_append, countConnectAttempts_pumpGeneration,
            countOpened_pumpGeneration]
          rw [h]
          congr 1 <;> omega

/-- C10: the client has no terminal state absent external cancellation —
after consuming any finite script of connection-attempt and message outcomes
(including arbitrary connect, handshake-send, receive and consumer failures),
the combined Supervisor/Pump loop is still running and poised to make the
next connection attempt; it never finishes and never lets an exception
escape. -/
theorem C10_no_terminal_state (sc : List AttemptScript) :
    (wsRun sc).2 =
      RunOutcome.running (countConnectAttempts (wsRun sc).1) (countOpened (wsRun sc).1) := by
  have h := run_outcome_running sc 0 0
  simpa [wsRun] using h

theorem run_replicate_fail (n : Nat) (a g : Nat) (e : String) :
    countConnectAttempts (run a g (List.replicate n (AttemptScript.fail e))).1 = n ∧
      (run a g (List.replicate n (AttemptScript.fail e))).2 = RunOutcome.running (a + n) g := by
  induction n generalizing a with
  | zero => exact ⟨rfl, by simp [run, countConnectAttempts]⟩
  | succ n ih =>
      obtain ⟨ih1, ih2⟩ := ih (a + 1)
      constructor
      · simp [List.replicate_succ, run, countConnectAttempts, ih1]
      · simp only [List.replicate_succ, run]
        rw [ih2]
        congr 1
        omega

/-- C4: the Supervisor retries indefinitely — a script of `n` consecutive
connection failures produces exactly `n` connection attempts and leaves the
system still running (about to attempt again), for every `n`; and no
transport-level failure of any kind ever propagates to the process boundary:
over every script the outcome is never `raised` and never `finished`. -/
theorem C4_retries_forever_nothing_escapes :
    (∀ (sc : List AttemptScript) (e : String), (wsRun sc).2 ≠ RunOutcome.raised e) ∧
    (∀ sc : List AttemptScript, (wsRun sc).2 ≠ RunOutcome.finished) ∧
    (∀ (n : Nat) (e : String),
      countConnectAttempts (wsRun (List.replicate n (AttemptScript.fail e))).1 = n ∧
        (wsRun (List.replicate n (AttemptScript.fail e))).2 = RunOutcome.running n 0) := by
  refine ⟨?_, ?_, ?_⟩
  · intro sc e h
    simp only [wsRun] at h
    rw [run_outcome_running sc 0 0] at h
    exact RunOutcome.noConfusion h
  · intro sc h
    simp only [wsRun] at h
    rw [run_outcome_running sc 0 0] at h
    exact RunOutcome.noConfusion h
  · intro n e
    have h := run_replicate_fail n 0 0 e
    simpa [wsRun] using h

theorem pumpLoop_recvFail (g : Nat) (e : String) (post : List RecvOutcome)
    (frames : List String) :
    (pumpLoop g (frames.map (fun p => RecvOutcome.frame p none) ++
        RecvOutcome.fail e :: post)).2 = some e ∧
    countRecvAttemptsOn g (pumpLoop g (frames.map (fun p => RecvOutcome.frame p none) ++
        RecvOutcome.fail e :: post)).1 = frames.length + 1 ∧
    countLogged (pumpLoop g (frames.map (fun p => RecvOutcome.frame p none) ++
        RecvOutcome.fail e :: post)).1 = 0 ∧
    countSleepCreated (pumpLoop g (frames.map (fun p => RecvOutcome.frame p none) ++
        RecvOutcome.fail e :: post)).1 = 0 := by
  induction frames with
  | nil => simp [pumpLoop, countRecvAttemptsOn, countLogged, countSleepCreated]
  | cons p frames ih =>
      obtain ⟨h1, h2, h3, h4⟩ := ih
      refine ⟨by simpa [pumpLoop] using h1, ?_, ?_, ?_⟩
      · simp [pumpLoop, countRecvAttemptsOn, h2]
      · simpa [pumpLoop, countLogged] using h3
      · simpa [pumpLoop, countSleepCreated] using h4

/-- C5: when a `websocket.recv` call raises mid-stream (after any number of
successfully pumped frames, with arbitrary further outcomes scripted behind
the error), the Message Pump stops: exactly one receive is attempted beyond
the successful ones (none after the failing one, on that now-invalid handle),
the failure is reported by exactly one error log, the pump introduces no
delay of its own (no sleep constructed, zero time slept), and the error log
is the last thing it does before control returns to the Supervisor. -/
theorem C5_recv_error_single_report (g : Nat) (frames : List String) (e : String)
    (post : List RecvOutcome) :
    countRecvAttemptsOn g (pumpGeneration g (recvFailScript frames e post)) =
      frames.length + 1 ∧
    countLogged (pumpGeneration g (recvFailScript frames e post)) = 1 ∧
    countSleepCreated (pumpGeneration g (recvFailScript frames e post)) = 0 ∧
    sleptTotal (pumpGeneration g (recvFailScript frames e post)) = 0 ∧
    (pumpGeneration g (recvFailScript frames e post)).getLast? =
      some (Event.logged "print_btc_ticker" e) := by
  obtain ⟨h1, h2, h3, h4⟩ := pumpLoop_recvFail g e post frames
  refine ⟨?_, ?_, ?_, sleptTotal_pumpGeneration g _, ?_⟩
  · simp [recvFailScript, pumpGeneration, h1, countRecvAttemptsOn,
      countRecvAttemptsOn_append, h2]
  · simp [recvFailScript, pumpGeneration, h1, countLogged, countLogged_append, h3]
  · simp [recvFailScript, pumpGeneration, h1, countSleepCreated,
      countSleepCreated_append, h4]
  · simp only [recvFailScript, pumpGeneration, h1]
    exact List.getLast?_concat
      (Event.sent g subscribeFrame ::
        (pumpLoop g (List.map (fun p => RecvOutcome.frame p none) frames ++
          RecvOutcome.fail e :: post)).1)

theorem sentFramesOn_pumpLoop (g2 g : Nat) (rs : List RecvOutcome) :
    sentFramesOn g2 (pumpLoop g rs).1 = [] := by
  induction rs with
  | nil => rfl
  | cons r rest ih =>
      cases r with
      | frame p ce => cases ce <;> simp [pumpLoop, sentFramesOn, ih]
      | fail e => simp [pumpLoop, sentFramesOn]

theorem sentFramesOn_pumpGeneration_self (g : Nat) (c : ConnScript) :
    sentFramesOn g (pumpGeneration g c) = [subscribeFrame] := by
  obtain ⟨se, rs⟩ := c
  cases se with
  | some e => simp [pumpGeneration, sentFramesOn]
  | none =>
      cases hr : (pumpLoop g rs).2 <;>
        simp [pumpGeneration, hr, sentFramesOn, sentFramesOn_append, sentFramesOn_pumpLoop]

theorem handshakeFirst_pumpGeneration_self (g : Nat) (c : ConnScript) (t : List Event) :
    handshakeFirst g (pumpGeneration g c ++ t) = true := by
  obtain ⟨se, rs⟩ := c
  cases se with
  | some e => simp [pumpGeneration, handshakeFirst]
  | none => cases hr : (pumpLoop g rs).2 <;> simp [pumpGeneration, hr, handshakeFirst]

theorem sentFramesOn_transparent (g : Nat) (t : List Event)
    (h : ∀ ev ∈ t, evGen ev ≠ some g) : sentFramesOn g t = [] := by
  induction t with
  | nil => rfl
  | cons ev rest ih =>
      have h0 := h ev (List.mem_cons_self ev rest)
      have hr : ∀ e ∈ rest, evGen e ≠ some g :=
        fun e he => h e (List.mem_cons_of_mem ev he)
      cases ev
      case sent g2 f =>
        have hne : g2 ≠ g := fun hh => h0 (by simp [evGen, hh])
        simp [sentFramesOn, hne, ih hr]
      all_goals simp [sentFramesOn, ih hr]

theorem handshakeFirst_transparent (g : Nat) (t1 t2 : List Event)
    (h : ∀ ev ∈ t1, evGen ev ≠ some g) :
    handshakeFirst g (t1 ++ t2) = handshakeFirst g t2 := by
  induction t1 with
  | nil => rfl
  | cons ev rest ih =>
      have h0 := h ev (List.mem_cons_self ev rest)
      have hr : ∀ e ∈ rest, evGen e ≠ some g :=
        fun e he => h e (List.mem_cons_of_mem ev he)
      cases ev
      case sent g2 f =>
        have hne : g2 ≠ g := fun hh => h0 (by simp [evGen, hh])
        simp [handshakeFirst, hne, ih hr]
      case recvAttempt g2 =>
        have hne : g2 ≠ g := fun hh => h0 (by simp [evGen, hh])
        simp [handshakeFirst, hne, ih hr]
      case received g2 p =>
        have hne : g2 ≠ g := fun hh => h0 (by simp [evGen, hh])
        simp [handshakeFirst, hne, ih hr]
      case delivered g2 p =>
        have hne : g2 ≠ g := fun hh => h0 (by simp [evGen, hh])
        simp [handshakeFirst, hne, ih hr]
      all_goals simp [handshakeFirst, ih hr]

theorem opened_not_mem_pumpLoop (g2 g : Nat) (rs : List RecvOutcome) :
    Event.opened g2 ∉ (pumpLoop g rs).1 := by
  induction rs with
  | nil => simp [pumpLoop]
  | cons r rest ih =>
      cases r with
      | frame p ce => cases ce <;> simp [pumpLoop, ih]
      | fail e => simp [pumpLoop]

theorem opened_not_mem_pumpGeneration (g2 g : Nat) (c : ConnScript) :
    Event.opened g2 ∉ pumpGeneration g c := by
  obtain ⟨se, rs⟩ := c
  cases se with
  | some e => simp [pumpGeneration]
  | none =>
      cases hr : (pumpLoop g rs).2 <;>
        simp [pumpGeneration, hr, opened_not_mem_pumpLoop]

theorem pumpGeneration_transparent (g g0 : Nat) (c : ConnScript) (hne : g ≠ g0) :
    ∀ ev ∈ pumpGeneration g0 c, evGen ev ≠ some g := by
  intro ev hev hg
  rcases evGen_pumpGeneration g0 c ev hev with h2 | h2
  · rw [h2] at hg; exact hne (Option.some_injective _ hg).symm
  · rw [h2] at hg; exact Option.noConfusion hg

theorem run_tail_transparent (rest : List AttemptScript) (a g0 g : Nat) (hlt : g < g0) :
    ∀ ev ∈ (run a g0 rest).1, evGen ev ≠ some g := by
  intro ev hev hg
  have := evGen_run_ge rest a g0 ev hev g hg
  omega

theorem run_handshake (sc : List AttemptScript) (g : Nat) (a g0 : Nat)
    (h : Event.opened g ∈ (run a g0 sc).1) :
    sentFramesOn g (run a g0 sc).1 = [subscribeFrame] ∧
      handshakeFirst g (run a g0 sc).1 = true := by
  induction sc generalizing a g0 with
  | nil => simp [run] at h
  | cons s rest ih =>
      cases s with
      | fail e =>
          simp only [run, List.mem_cons] at h
          rcases h with h | h | h | h | h
          · exact Event.noConfusion h
          · exact Event.noConfusion h
          · exact Event.noConfusion h
          · exact Event.noConfusion h
          · obtain ⟨ih1, ih2⟩ := ih a.succ g0 h
            exact ⟨by simpa [run, sentFramesOn] using ih1,
              by simpa [run, handshakeFirst] using ih2⟩
      | ok c =>
          simp only [run, List.mem_cons, List.mem_append] at h
          rcases h with h | h | h | h | h | h
          · exact Event.noConfusion h
          · have hg : g = g0 := by injection h
            subst hg
            constructor
            · simp only [run, sentFramesOn, sentFramesOn_append]
              rw [sentFramesOn_pumpGeneration_self g c,
                sentFramesOn_transparent g (run (a + 1) (g + 1) rest).1
                  (run_tail_transparent rest (a + 1) (g + 1) g (by omega))]
              simp [sentFramesOn]
            · simp only [run, handshakeFirst]
              exact handshakeFirst_pumpGeneration_self g c _
          · exact Event.noConfusion h
          · exact absurd h (opened_not_mem_pumpGeneration g g0 c)
          · exact Event.noConfusion h
          · have hgt : g0 + 1 ≤ g :=
              evGen_run_ge rest (a + 1) (g0 + 1) (Event.opened g) h g rfl
            obtain ⟨ih1, ih2⟩ := ih (a + 1) (g0 + 1) h
            have htrans := pumpGeneration_transparent g g0 c (by omega)
            constructor
            · simp only [run, sentFramesOn, sentFramesOn_append]
              rw [sentFramesOn_transparent g (pumpGeneration g0 c) htrans, ih1]
              simp [sentFramesOn]
            · simp only [run, handshakeFirst]
              rw [handshakeFirst_transparent g (pumpGeneration g0 c) _ htrans]
              simpa [handshakeFirst] using ih2

/-- C3: for every successful connection generation, exactly one frame is
sent on the freshly yielded handle — the subscribe frame — and that send
precedes every receive attempt, every received frame, and every message
forwarded to the consumer on that generation. -/
theorem C3_handshake_once_before_traffic (sc : List AttemptScript) (g : Nat)
    (h : Event.opened g ∈ (wsRun sc).1) :
    sentFramesOn g (wsRun sc).1 = [subscribeFrame] ∧
      handshakeFirst g (wsRun sc).1 = true :=
  run_handshake sc g 0 0 h

/-- Witness for C3 at a concrete input: the script whose first attempt is
refused and whose second succeeds opens generation 0, which receives exactly
the one subscribe frame before any traffic. -/
theorem C3_handshake_witness :
    sentFramesOn 0 (wsRun refusedOnceScript).1 = [subscribeFrame] ∧
      handshakeFirst 0 (wsRun refusedOnceScript).1 = true :=
  C3_handshake_once_before_traffic refusedOnceScript 0 (by decide)
